import Mathlib

/-! Verification development for the dexboost price-analysis repository.

The definitions below are a shallow embedding of the engine code:

* `calculate_event_data` embeds `env_scripts/plot_utils.py::calculate_event_data`
  (TP/SL event detection over the price series of one token);
* `local_maxima_1d`, `kill_near`, `select_by_peak_distance` and `find_peaks`
  embed the `scipy.signal.find_peaks(x, distance=d)` call used there
  (`_local_maxima_1d` followed by `_select_by_peak_distance`);
* `Trigger`, `FirstTrigger`, `MaxPriceSeconds`, `MinPriceSeconds` embed the
  per-token aggregation of `env_scripts/preprocessing.py::parse_price_history`
  and `env_scripts/pipeline.py::summarize_token_behavior`;
* `define_is_worth_it` embeds `env_scripts/target_definition.py`;
* `total_profit`, `overall_percentage`, `count_tp`, ... embed the portfolio
  summary block of `env_scripts/plot_utils.py::plot_and_save_peaks`.

Prices, times and percentages are modelled as rationals; pandas row order is
modelled by list order.  Sorting (`df.sort_values`, `np.argsort`) is modelled
by the stable `List.insertionSort`; the behaviour proved about never depends
on the order of tied keys.
-/

/-- One row of the per-token price frame used by `calculate_event_data`:
the columns `TimeSinceBoostStart` and `Price`. -/
structure PricePoint where
  timeSinceBoostStart : ℚ
  price : ℚ
deriving DecidableEq, Repr

/-- The sort key of `df.sort_values` over the TimeSinceBoostStart column. -/
def timeLE (a b : PricePoint) : Prop :=
  a.timeSinceBoostStart ≤ b.timeSinceBoostStart

instance : DecidableRel timeLE :=
  fun a b => inferInstanceAs (Decidable (a.timeSinceBoostStart ≤ b.timeSinceBoostStart))

/-- Distance between two sample indices, `|a - b|` on naturals. -/
def nat_gap (a b : ℕ) : ℕ := max a b - min a b

/-- Inner plateau scan of the scipy function `_local_maxima_1d`: starting at `iAhead`,
advance while `iAhead < iMax` and `x[iAhead] == v`.  Fuel-based recursion;
the callers pass enough fuel for the scan to finish. -/
def plateau_end (x : List ℚ) (iMax : ℕ) (v : ℚ) : ℕ → ℕ → ℕ
  | iAhead, 0 => iAhead
  | iAhead, fuel + 1 =>
    if iAhead < iMax ∧ x.getD iAhead 0 = v then plateau_end x iMax v (iAhead + 1) fuel
    else iAhead

/-- Main loop of the scipy function `_local_maxima_1d`: `i` runs over `1 .. iMax-1`;
a maximum starts where `x[i-1] < x[i]`, extends over a plateau of equal
values, and is confirmed when the sample after the plateau is strictly
smaller; the recorded index is the plateau midpoint. -/
def lm_loop (x : List ℚ) (iMax : ℕ) : ℕ → ℕ → List ℕ
  | _, 0 => []
  | i, fuel + 1 =>
    if i < iMax then
      if x.getD (i - 1) 0 < x.getD i 0 then
        let iAhead := plateau_end x iMax (x.getD i 0) (i + 1) x.length
        if x.getD iAhead 0 < x.getD i 0 then
          ((i + (iAhead - 1)) / 2) :: lm_loop x iMax (iAhead + 1) fuel
        else lm_loop x iMax (i + 1) fuel
      else lm_loop x iMax (i + 1) fuel
    else []

/-- scipy `_local_maxima_1d x`: indices of the interior local maxima of `x`,
in increasing order. -/
def local_maxima_1d (x : List ℚ) : List ℕ :=
  lm_loop x (x.length - 1) 1 (x.length + 1)

/-- One step of the scipy function `_select_by_peak_distance`: if the peak at position
`j` is still kept, discard every other peak whose sample index is closer
than `dist` to it.  (The two inner while loops of the source stop at the first
peak farther than `dist`; since the peak positions are increasing that
removes exactly the peaks with gap `< dist`, which is what the full scan
below does.) -/
def kill_near (peaks : List ℕ) (dist : ℕ) (keep : List Bool) (j : ℕ) : List Bool :=
  if keep.getD j false = true then
    (List.range peaks.length).map (fun k =>
      if k = j then keep.getD k false
      else if nat_gap (peaks.getD j 0) (peaks.getD k 0) < dist then false
      else keep.getD k false)
  else keep

/-- scipy `_select_by_peak_distance peaks priority dist`: process peaks in
decreasing priority (= peak height) order, discarding neighbours of each
survivor closer than `dist`.  `np.argsort` is modelled by the stable
`insertionSort`; the order of equal priorities does not affect anything
proved below. -/
def select_by_peak_distance (peaks : List ℕ) (priority : List ℚ) (dist : ℕ) : List Bool :=
  List.foldl (kill_near peaks dist) (List.replicate peaks.length true)
    (List.insertionSort (fun a b => priority.getD a 0 ≤ priority.getD b 0)
      (List.range peaks.length)).reverse

/-- scipy `find_peaks(x, distance=dist)`: local maxima filtered by the
minimum-distance condition (boolean indexing `peaks[keep]`). -/
def find_peaks (x : List ℚ) (dist : ℕ) : List ℕ :=
  let peaks := local_maxima_1d x
  let keep := select_by_peak_distance peaks (peaks.map (fun i => x.getD i 0)) dist
  ((List.range peaks.length).filter (fun i => keep.getD i false)).map (fun i => peaks.getD i 0)

/-- The pair of extrema index lists computed in `calculate_event_data`
(`find_peaks(prices, ...)` and `find_peaks(-prices, ...)`). -/
structure ExtremaSet where
  peaks : List ℕ
  troughs : List ℕ
deriving DecidableEq, Repr

/-- The extremum scanner of `calculate_event_data`: peaks of the price list
and peaks of its negation. -/
def find_extrema (x : List ℚ) (dist : ℕ) : ExtremaSet :=
  { peaks := find_peaks x dist
    troughs := find_peaks (x.map (fun q => -q)) dist }

/-- Failure modes of `calculate_event_data`.  The source raises a plain
`IndexError` from `prices.iloc[0]` on an empty frame (`indexError`); it
defines no `InvalidSeries` error anywhere — the constructor `invalidSeries`
exists only so the error taxonomy of the spec can be stated and compared. -/
inductive CalcError where
  | indexError
  | invalidSeries
deriving DecidableEq, Repr

/-- The dictionary returned by `calculate_event_data`. -/
structure EventData where
  time_diff : List ℚ
  prices : List ℚ
  peaks : List ℕ
  troughs : List ℕ
  initial_price : ℚ
  tp_value : ℚ
  sl_value : ℚ
  event : String
  event_time : ℚ
  event_price : ℚ
  effect : ℚ
deriving DecidableEq, Repr

/-- Builds the result dictionary of `calculate_event_data` for event kind
`event` resolved at sample `pt`; `effect = (event_price - initial_price) /
initial_price * 100`. -/
def event_result (time_diff prices : List ℚ) (peaks troughs : List ℕ)
    (initial_price tp_value sl_value : ℚ) (event : String) (pt : PricePoint) : EventData :=
  { time_diff := time_diff
    prices := prices
    peaks := peaks
    troughs := troughs
    initial_price := initial_price
    tp_value := tp_value
    sl_value := sl_value
    event := event
    event_time := pt.timeSinceBoostStart
    event_price := pt.price
    effect := (pt.price - initial_price) / initial_price * 100 }

/-- Rows at or above the TP boundary: `tp_event = df[Price at least tp_value]`. -/
def tp_event (df : List PricePoint) (tp_value : ℚ) : List PricePoint :=
  df.filter (fun p => decide (tp_value ≤ p.price))

/-- Rows at or below the SL boundary: `sl_event = df[Price at most sl_value]`. -/
def sl_event (df : List PricePoint) (sl_value : ℚ) : List PricePoint :=
  df.filter (fun p => decide (p.price ≤ sl_value))

/-- Body of `calculate_event_data` on the already-sorted frame: peaks and
troughs, TP/SL boundary values from the first price, first boundary-crossing
rows, and the event resolution (`tp_time <= sl_time` prefers TP; neither
crossing gives the last row as `No trigger`).  An empty frame raises at
`prices.iloc[0]`. -/
def calc_event_core (df : List PricePoint) (distance : ℕ) (tp_threshold sl_threshold : ℚ) :
    Except CalcError EventData :=
  match df with
  | [] => Except.error CalcError.indexError
  | p0 :: rest =>
    let time_diff := (p0 :: rest).map (fun p => p.timeSinceBoostStart)
    let prices := (p0 :: rest).map (fun p => p.price)
    let peaks := find_peaks prices distance
    let troughs := find_peaks (prices.map (fun q => -q)) distance
    let initial_price := p0.price
    let tp_value := initial_price * tp_threshold
    let sl_value := initial_price * sl_threshold
    match (tp_event (p0 :: rest) tp_value).head?, (sl_event (p0 :: rest) sl_value).head? with
    | some ptp, some psl =>
      if ptp.timeSinceBoostStart ≤ psl.timeSinceBoostStart then
        Except.ok (event_result time_diff prices peaks troughs initial_price tp_value sl_value
          "TP" ptp)
      else
        Except.ok (event_result time_diff prices peaks troughs initial_price tp_value sl_value
          "SL" psl)
    | some ptp, none =>
      Except.ok (event_result time_diff prices peaks troughs initial_price tp_value sl_value
        "TP" ptp)
    | none, some psl =>
      Except.ok (event_result time_diff prices peaks troughs initial_price tp_value sl_value
        "SL" psl)
    | none, none =>
      Except.ok (event_result time_diff prices peaks troughs initial_price tp_value sl_value
        "No trigger" ((p0 :: rest).getLast (List.cons_ne_nil p0 rest)))

instance {ε α : Type} [DecidableEq ε] [DecidableEq α] : DecidableEq (Except ε α) := fun a b =>
  match a, b with
  | .ok x, .ok y => if h : x = y then isTrue (by rw [h]) else isFalse (by simp [h])
  | .error x, .error y => if h : x = y then isTrue (by rw [h]) else isFalse (by simp [h])
  | .ok _, .error _ => isFalse (by simp)
  | .error _, .ok _ => isFalse (by simp)

/-- Embeds `env_scripts/plot_utils.py::calculate_event_data`: sort the frame by
`TimeSinceBoostStart`, then resolve the event. -/
def calculate_event_data (df : List PricePoint) (distance : ℕ)
    (tp_threshold sl_threshold : ℚ) : Except CalcError EventData :=
  calc_event_core (List.insertionSort timeLE df) distance tp_threshold sl_threshold

/-- One row of the exploded per-token price frame built by
`parse_price_history`: the columns `TimeSinceBoostStart` and
`PriceVariation_%` (all that the labeling path aggregates over). -/
structure PriceRow where
  timeSinceBoostStart : ℚ
  priceVariation : ℚ
deriving DecidableEq, Repr

/-- The `Trigger` column of `parse_price_history` (`np.select` with the TP
condition tested first; the defaults are `tp=35`, `sl=-40`). -/
def Trigger (tp sl v : ℚ) : String :=
  if tp ≤ v then "TP" else if v ≤ sl then "SL" else "No event"

/-- The `FirstTrigger` column of `summarize_token_behavior`: the pandas
aggregation of the Trigger column by first takes the `Trigger` value of
the first row of the group. -/
def FirstTrigger (g : List PriceRow) : Option String :=
  g.head?.map (fun r => Trigger 35 (-40) r.priceVariation)

/-- The `MaxPriceSeconds` column of `summarize_token_behavior`:
`idxmax` over `TimeSinceBoostStart` (first row attaining the maximal time,
`List.argmax` keeps the first of tied rows like pandas `idxmax`), then the
`TimeSinceBoostStart` value at that row. -/
def MaxPriceSeconds (g : List PriceRow) : Option ℚ :=
  (List.argmax (fun r => r.timeSinceBoostStart) g).map (fun r => r.timeSinceBoostStart)

/-- The `MinPriceSeconds` column of `summarize_token_behavior`:
`idxmin` over `TimeSinceBoostStart`, then the time value at that row. -/
def MinPriceSeconds (g : List PriceRow) : Option ℚ :=
  (List.argmin (fun r => r.timeSinceBoostStart) g).map (fun r => r.timeSinceBoostStart)

/-- Modelled from the spec: the `time_of_max` field of `TokenSummary`, "the
time offset of the sample attaining the maximum price variation" (first
such sample for ties).  Stated for comparison with `MaxPriceSeconds`. -/
def time_of_max_variation (g : List PriceRow) : Option ℚ :=
  (List.argmax (fun r => r.priceVariation) g).map (fun r => r.timeSinceBoostStart)

/-- Modelled from the spec: the `time_of_min` field of `TokenSummary`, the
time offset of the sample attaining the minimum price variation. -/
def time_of_min_variation (g : List PriceRow) : Option ℚ :=
  (List.argmin (fun r => r.priceVariation) g).map (fun r => r.timeSinceBoostStart)

/-- Modelled from the spec: the first-trigger value the spec describes for
`TokenSummary.first_trigger` — the classification of the first sample, in
row (time) order, that crosses a threshold, or `"No event"` when no sample
crosses either. -/
def first_crossing_trigger (g : List PriceRow) : String :=
  match g.filter (fun r => decide (Trigger 35 (-40) r.priceVariation ≠ "No event")) with
  | [] => "No event"
  | r :: _ => Trigger 35 (-40) r.priceVariation

/-- One summary row consumed by `define_is_worth_it`
(`summarize_token_behavior` names these columns `FirstTrigger`,
`HasRugPull`, `RugPullSeconds`, `SecondsTrigger`, `MaxPriceVar`,
`MinPriceVar`, `MaxPriceSeconds`, `MinPriceSeconds`). -/
structure SummaryRow where
  firstTrigger : String
  hasRugPull : ℤ
  rugPullSeconds : ℚ
  secondsTrigger : ℚ
  maxPriceVar : ℚ
  minPriceVar : ℚ
  maxPriceSeconds : ℚ
  minPriceSeconds : ℚ
deriving DecidableEq, Repr

/-- Embeds `env_scripts/target_definition.py::define_is_worth_it`: the four-clause
decision rule producing the binary `IsWorthIt` label. -/
def define_is_worth_it (row : SummaryRow) : ℤ :=
  if (row.firstTrigger = "TP" ∧ row.hasRugPull = 0) ∨
     (row.firstTrigger = "TP" ∧ row.hasRugPull = 1 ∧
       row.secondsTrigger + 30 < row.rugPullSeconds) ∨
     (30 ≤ row.maxPriceVar ∧ row.maxPriceSeconds < row.minPriceSeconds) ∨
     (30 ≤ row.maxPriceVar ∧ row.minPriceVar < -20 ∧
       row.minPriceSeconds < row.maxPriceSeconds) then 1
  else 0

/-- One entry of `simulation_results` in
`env_scripts/plot_utils.py::plot_and_save_peaks`: the fields of the
per-token dict used by the simulation table and the summary page
(`TokenMint`, `Event`, `TimeSinceBoost`, `Effect (%)`). -/
structure SimRecord where
  tokenMint : String
  event : String
  timeSinceBoost : ℚ
  effect : ℚ
deriving DecidableEq, Repr

/-- Fixed stake per trade, `initial_trade = 200.0` in the source. -/
def initial_trade : ℚ := 200

/-- Sort key of the Python sorted call over simulation_results: TimeSinceBoost. -/
def simTimeLE (a b : SimRecord) : Prop := a.timeSinceBoost ≤ b.timeSinceBoost

instance : DecidableRel simTimeLE :=
  fun a b => inferInstanceAs (Decidable (a.timeSinceBoost ≤ b.timeSinceBoost))

/-- Records in ascending `TimeSinceBoost` order (`simulation_sorted` in the
source; the Python sorted builtin is stable, as is `insertionSort`). -/
def simulation_sorted (rs : List SimRecord) : List SimRecord :=
  List.insertionSort simTimeLE rs

/-- Accumulated profit: the loop over `simulation_sorted` accumulating
`final_trade - initial_trade` with `final_trade = initial_trade *
(1 + effect/100)`. -/
def total_profit (rs : List SimRecord) : ℚ :=
  (simulation_sorted rs).foldl
    (fun acc r => acc + (initial_trade * (1 + r.effect / 100) - initial_trade)) 0

/-- Number of records, `total_trades = len(simulation_results)`. -/
def total_trades (rs : List SimRecord) : ℕ := rs.length

/-- Overall return: `total_profit / (initial_trade * total_trades) * 100`
when `total_trades > 0`, else 0. -/
def overall_percentage (rs : List SimRecord) : ℚ :=
  if 0 < total_trades rs then
    total_profit rs / (initial_trade * (total_trades rs : ℚ)) * 100
  else 0

/-- Count of records whose `Event` is TP. -/
def count_tp (rs : List SimRecord) : ℕ :=
  (rs.filter (fun r => decide (r.event = "TP"))).length

/-- Count of records whose `Event` is SL. -/
def count_sl (rs : List SimRecord) : ℕ :=
  (rs.filter (fun r => decide (r.event = "SL"))).length

/-- Count of records with `Event` No trigger and strictly positive effect. -/
def count_no_positive (rs : List SimRecord) : ℕ :=
  (rs.filter (fun r => decide (r.event = "No trigger" ∧ 0 < r.effect))).length

/-- Count of records with `Event` No trigger and strictly negative effect. -/
def count_no_negative (rs : List SimRecord) : ℕ :=
  (rs.filter (fun r => decide (r.event = "No trigger" ∧ r.effect < 0))).length

/-- The sum of the four event-kind tallies on the summary page. -/
def event_kind_count_sum (rs : List SimRecord) : ℕ :=
  count_tp rs + count_sl rs + count_no_positive rs + count_no_negative rs

/-- Win rate: the share of records with strictly positive effect, times
100, when `total_trades > 0`, else 0. -/
def win_rate (rs : List SimRecord) : ℚ :=
  if 0 < total_trades rs then
    ((rs.filter (fun r => decide (0 < r.effect))).length : ℚ) / (total_trades rs : ℚ) * 100
  else 0

/-- Average effect: the sum of effects over `total_trades` when positive, else 0. -/
def avg_effect (rs : List SimRecord) : ℚ :=
  if 0 < total_trades rs then (rs.map (fun r => r.effect)).sum / (total_trades rs : ℚ)
  else 0

/-- Distinct token mints (a Python set in the source), modelled as the
deduplicated list of TokenMint values. -/
def unique_tokens (rs : List SimRecord) : List String :=
  (rs.map (fun r => r.tokenMint)).dedup

/-- Distinct mints of records whose effect is at most -50. -/
def rugpull_tokens (rs : List SimRecord) : List String :=
  ((rs.filter (fun r => decide (r.effect ≤ -50))).map (fun r => r.tokenMint)).dedup

/-- Rug-pull rate: `rugpull_tokens` over `unique_tokens`, times 100, when
any token exists, else 0. -/
def rugpull_percentage (rs : List SimRecord) : ℚ :=
  if unique_tokens rs ≠ [] then
    ((rugpull_tokens rs).length : ℚ) / ((unique_tokens rs).length : ℚ) * 100
  else 0

/-! ## Theorems -/

/-- Claim C6: for every token summary, the label equals 1 if and only if at
least one of the four clauses holds (TP first trigger without rug pull; TP
first trigger with rug pull occurring more than 30 seconds after the
trigger; max variation at least 30 with the max strictly earlier than the
min; max variation at least 30 with min variation below -20 and the min
strictly earlier than the max), and otherwise equals 0; the labeler is
total and never errors on well-typed input. -/
theorem c6_label_iff_clauses (row : SummaryRow) :
    (define_is_worth_it row = 0 ∨ define_is_worth_it row = 1) ∧
    (define_is_worth_it row = 1 ↔
      ((row.firstTrigger = "TP" ∧ row.hasRugPull = 0) ∨
       (row.firstTrigger = "TP" ∧ row.hasRugPull = 1 ∧
         row.rugPullSeconds > row.secondsTrigger + 30) ∨
       (row.maxPriceVar ≥ 30 ∧ row.maxPriceSeconds < row.minPriceSeconds) ∨
       (row.maxPriceVar ≥ 30 ∧ row.minPriceVar < -20 ∧
         row.minPriceSeconds < row.maxPriceSeconds))) := by
  unfold define_is_worth_it
  split_ifs with h
  · refine ⟨Or.inr rfl, ?_⟩
    simp only [gt_iff_lt, ge_iff_le]
    exact iff_of_true trivial h
  · refine ⟨Or.inl rfl, ?_⟩
    simp only [gt_iff_lt, ge_iff_le]
    exact iff_of_false (by decide) h

/-- Witness for C6: the concrete scenario of the spec — `first_trigger = TP`,
`has_rug_pull = false` gives label 1 regardless of the other fields. -/
theorem c6_label_iff_clauses_witness :
    define_is_worth_it ⟨"TP", 0, 9999, 0, 0, 0, 0, 0⟩ = 1 :=
  (c6_label_iff_clauses ⟨"TP", 0, 9999, 0, 0, 0, 0, 0⟩).2.mpr (Or.inl ⟨rfl, rfl⟩)

/-- Claim C9: running the simulation summary over zero event records gives
`total_trades = 0` and all rate and average metrics (win rate, average
effect, rug-pull rate, overall return) equal to zero, with no
division-by-zero (every quotient is guarded by the `total_trades > 0` and
`unique_tokens` checks, so the empty case is the unguarded branch). -/
theorem c9_empty_portfolio_all_zero :
    total_trades [] = 0 ∧ win_rate [] = 0 ∧ avg_effect [] = 0 ∧
    rugpull_percentage [] = 0 ∧ overall_percentage [] = 0 := by
  refine ⟨rfl, ?_, ?_, ?_, ?_⟩ <;> rfl

/-- A record falls under at most one of the four event-kind predicates of
the summary page. -/
theorem kind_indicator_le_one (r : SimRecord) :
    (if r.event = "TP" then (1 : ℕ) else 0) + (if r.event = "SL" then 1 else 0) +
    (if r.event = "No trigger" ∧ 0 < r.effect then 1 else 0) +
    (if r.event = "No trigger" ∧ r.effect < 0 then 1 else 0) ≤ 1 := by
  by_cases h1 : r.event = "TP"
  · rw [if_pos h1, if_neg (by simp [h1]), if_neg (by simp [h1]), if_neg (by simp [h1])]
  · rw [if_neg h1]
    by_cases h2 : r.event = "SL"
    · rw [if_pos h2, if_neg (by simp [h2]), if_neg (by simp [h2])]
    · rw [if_neg h2]
      by_cases h3 : r.event = "No trigger" ∧ 0 < r.effect
      · rw [if_pos h3, if_neg (fun hc => absurd (hc.2.trans h3.2) (lt_irrefl _))]
      · rw [if_neg h3]
        split_ifs <;> omega

/-- Any single record adds to at most one of the four event-kind tallies,
so their sum never exceeds the number of records. -/
theorem event_kind_count_sum_le (rs : List SimRecord) :
    event_kind_count_sum rs ≤ total_trades rs := by
  induction rs with
  | nil => decide
  | cons r rs ih =>
    have hcons : event_kind_count_sum (r :: rs) =
        ((if r.event = "TP" then (1 : ℕ) else 0) + (if r.event = "SL" then 1 else 0) +
         (if r.event = "No trigger" ∧ 0 < r.effect then 1 else 0) +
         (if r.event = "No trigger" ∧ r.effect < 0 then 1 else 0)) +
        event_kind_count_sum rs := by
      unfold event_kind_count_sum count_tp count_sl count_no_positive count_no_negative
      simp only [List.filter_cons, decide_eq_true_eq]
      split_ifs <;> (try simp only [List.length_cons]) <;> omega
    have hone := kind_indicator_le_one r
    have hlen : total_trades (r :: rs) = total_trades rs + 1 := by
      simp [total_trades]
    omega

/-- Claim C10: a `No trigger` record whose effect is exactly 0 is counted
in neither the NoTrigger-positive nor the NoTrigger-negative tally (both
comparisons are strict), nor as TP or SL, so the sum of the four event-kind
counts is strictly less than `total_trades`. -/
theorem c10_zero_effect_no_trigger_uncounted (r : SimRecord) (rs : List SimRecord)
    (he : r.event = "No trigger") (hz : r.effect = 0) :
    count_no_positive (r :: rs) = count_no_positive rs ∧
    count_no_negative (r :: rs) = count_no_negative rs ∧
    count_tp (r :: rs) = count_tp rs ∧
    count_sl (r :: rs) = count_sl rs ∧
    event_kind_count_sum (r :: rs) < total_trades (r :: rs) := by
  have h1 : count_no_positive (r :: rs) = count_no_positive rs := by
    simp [count_no_positive, List.filter_cons, hz]
  have h2 : count_no_negative (r :: rs) = count_no_negative rs := by
    simp [count_no_negative, List.filter_cons, hz]
  have h3 : count_tp (r :: rs) = count_tp rs := by
    simp [count_tp, List.filter_cons, he]
  have h4 : count_sl (r :: rs) = count_sl rs := by
    simp [count_sl, List.filter_cons, he]
  refine ⟨h1, h2, h3, h4, ?_⟩
  have hsum : event_kind_count_sum (r :: rs) = event_kind_count_sum rs := by
    unfold event_kind_count_sum
    rw [h1, h2, h3, h4]
  have := event_kind_count_sum_le rs
  unfold total_trades at *
  simp only [List.length_cons]
  omega

/-- Witness for C10 at the concrete record `("tok", "No trigger", 0, 0)`. -/
theorem c10_zero_effect_no_trigger_uncounted_witness :
    count_no_positive [⟨"tok", "No trigger", 0, 0⟩] = count_no_positive [] ∧
    count_no_negative [⟨"tok", "No trigger", 0, 0⟩] = count_no_negative [] ∧
    count_tp [⟨"tok", "No trigger", 0, 0⟩] = count_tp [] ∧
    count_sl [⟨"tok", "No trigger", 0, 0⟩] = count_sl [] ∧
    event_kind_count_sum [⟨"tok", "No trigger", 0, 0⟩] <
      total_trades [⟨"tok", "No trigger", 0, 0⟩] :=
  c10_zero_effect_no_trigger_uncounted ⟨"tok", "No trigger", 0, 0⟩ [] rfl rfl

/-- Claim C2 (code bug): on the series with samples (time 0, variation 50)
and (time 10, variation -10), the summary column `MaxPriceSeconds` is 10 — the
time of the chronologically last sample, because `summarize_token_behavior`
applies `idxmax`/`idxmin` to the `TimeSinceBoostStart` column — while the
time of the sample attaining the maximum price variation is 0; dually for
`MinPriceSeconds`. -/
theorem c2_extreme_times_use_wrong_column :
    MaxPriceSeconds [⟨0, 50⟩, ⟨10, -10⟩] = some 10 ∧
    time_of_max_variation [⟨0, 50⟩, ⟨10, -10⟩] = some 0 ∧
    MinPriceSeconds [⟨0, 50⟩, ⟨10, -10⟩] = some 0 ∧
    time_of_min_variation [⟨0, 50⟩, ⟨10, -10⟩] = some 10 ∧
    MaxPriceSeconds [⟨0, 50⟩, ⟨10, -10⟩] ≠ time_of_max_variation [⟨0, 50⟩, ⟨10, -10⟩] ∧
    MinPriceSeconds [⟨0, 50⟩, ⟨10, -10⟩] ≠ time_of_min_variation [⟨0, 50⟩, ⟨10, -10⟩] := by
  decide

/-- Claim C3 (code bug): on the series with samples (time 0, variation 0)
and (time 10, variation 40) and thresholds tp=35, sl=-40, the first sample
crossing a boundary is the TP sample at time 10, but the summary column
`FirstTrigger` — the pandas `"first"` aggregate of the `Trigger` column —
is the classification of the chronologically first sample, `"No event"`. -/
theorem c3_first_trigger_is_first_row_class :
    FirstTrigger [⟨0, 0⟩, ⟨10, 40⟩] = some "No event" ∧
    first_crossing_trigger [⟨0, 0⟩, ⟨10, 40⟩] = "TP" ∧
    FirstTrigger [⟨0, 0⟩, ⟨10, 40⟩] ≠
      some (first_crossing_trigger [⟨0, 0⟩, ⟨10, 40⟩]) := by
  decide

/-- Claim C7, counterexample: the series [1, 5, 2] is shorter than
`2*min_distance+1` for `min_distance = 25`, yet the extremum scanner
returns the peak at index 1, not an empty ExtremaSet. -/
theorem c7_counterexample_short_series_with_peak :
    ([1, 5, 2] : List ℚ).length < 2 * 25 + 1 ∧
    (find_extrema [1, 5, 2] 25).peaks ≠ [] := by
  decide

/-- Value of `getD` on a map over `range`: in-bounds gives the function
value, out-of-bounds the default. -/
theorem getD_map_range (n k : ℕ) (f : ℕ → Bool) :
    ((List.range n).map f).getD k false = if k < n then f k else false := by
  by_cases h : k < n
  · rw [if_pos h, List.getD_eq_getElem?_getD, List.getElem?_map, List.getElem?_range h]
    rfl
  · rw [if_neg h, List.getD_eq_getElem?_getD, List.getElem?_map,
      List.getElem?_eq_none (by simpa using not_lt.mp h)]
    rfl

/-- A `kill_near` step never resurrects a discarded peak. -/
theorem kill_near_mono (peaks : List ℕ) (dist : ℕ) (keep : List Bool) (j k : ℕ)
    (h : (kill_near peaks dist keep j).getD k false = true) :
    keep.getD k false = true := by
  unfold kill_near at h
  by_cases hj : keep.getD j false = true
  · rw [if_pos hj, getD_map_range] at h
    by_cases hk : k < peaks.length
    · rw [if_pos hk] at h
      by_cases hkj : k = j
      · rwa [if_pos hkj] at h
      · rw [if_neg hkj] at h
        by_cases hgap : nat_gap (peaks.getD j 0) (peaks.getD k 0) < dist
        · rw [if_pos hgap] at h
          exact Bool.noConfusion h
        · rwa [if_neg hgap] at h
    · rw [if_neg hk] at h
      exact Bool.noConfusion h
  · rwa [if_neg hj] at h

/-- No step of the `select_by_peak_distance` sweep resurrects a peak. -/
theorem foldl_kill_mono (peaks : List ℕ) (dist : ℕ) (l : List ℕ) (keep : List Bool) (k : ℕ)
    (h : (List.foldl (kill_near peaks dist) keep l).getD k false = true) :
    keep.getD k false = true := by
  induction l generalizing keep with
  | nil => exact h
  | cons j l ih => exact kill_near_mono _ _ _ _ _ (ih _ h)

/-- The `kill_near` step of a surviving peak discards every other peak closer
than `dist`. -/
theorem kill_near_kills (peaks : List ℕ) (dist : ℕ) (keep : List Bool) (j k : ℕ)
    (hj : keep.getD j false = true) (hk : k < peaks.length) (hne : k ≠ j)
    (hgap : nat_gap (peaks.getD j 0) (peaks.getD k 0) < dist) :
    (kill_near peaks dist keep j).getD k false = false := by
  unfold kill_near
  rw [if_pos hj, getD_map_range, if_pos hk, if_neg hne, if_pos hgap]

/-- Two distinct peak positions closer than `dist` cannot both survive
`select_by_peak_distance`: when the first of the two is processed it is
either already discarded, or its step discards the other. -/
theorem select_separation (peaks : List ℕ) (prio : List ℚ) (dist : ℕ) (ja jb : ℕ)
    (hna : ja < peaks.length) (hnb : jb < peaks.length) (hne : ja ≠ jb)
    (hgap : nat_gap (peaks.getD ja 0) (peaks.getD jb 0) < dist)
    (ha : (select_by_peak_distance peaks prio dist).getD ja false = true)
    (hb : (select_by_peak_distance peaks prio dist).getD jb false = true) : False := by
  unfold select_by_peak_distance at ha hb
  have hmem : ja ∈ (List.insertionSort
      (fun a b => prio.getD a 0 ≤ prio.getD b 0) (List.range peaks.length)).reverse := by
    rw [List.mem_reverse, List.mem_insertionSort, List.mem_range]
    exact hna
  obtain ⟨l1, l2, hsplit⟩ := List.append_of_mem hmem
  rw [hsplit, List.foldl_append, List.foldl_cons] at ha hb
  have hK2a : ((kill_near peaks dist)
      (List.foldl (kill_near peaks dist) (List.replicate peaks.length true) l1) ja).getD
      ja false = true := foldl_kill_mono _ _ _ _ _ ha
  have hK1a : (List.foldl (kill_near peaks dist)
      (List.replicate peaks.length true) l1).getD ja false = true :=
    kill_near_mono _ _ _ _ _ hK2a
  have hK2b : ((kill_near peaks dist)
      (List.foldl (kill_near peaks dist) (List.replicate peaks.length true) l1) ja).getD
      jb false = false := kill_near_kills _ _ _ _ _ hK1a hnb (Ne.symm hne) hgap
  have hK2b' : ((kill_near peaks dist)
      (List.foldl (kill_near peaks dist) (List.replicate peaks.length true) l1) ja).getD
      jb false = true := foldl_kill_mono _ _ _ _ _ hb
  rw [hK2b] at hK2b'
  exact Bool.noConfusion hK2b'

/-- Membership in `find_peaks` output comes from a kept position of the
local-maxima list. -/
theorem mem_find_peaks_elim (x : List ℚ) (d : ℕ) (a : ℕ) (ha : a ∈ find_peaks x d) :
    ∃ i, i < (local_maxima_1d x).length ∧
      (select_by_peak_distance (local_maxima_1d x)
        ((local_maxima_1d x).map (fun i => x.getD i 0)) d).getD i false = true ∧
      (local_maxima_1d x).getD i 0 = a := by
  unfold find_peaks at ha
  obtain ⟨i, hi, hfa⟩ := List.mem_map.mp ha
  obtain ⟨hir, hik⟩ := List.mem_filter.mp hi
  exact ⟨i, List.mem_range.mp hir, by simpa using hik, hfa⟩

/-- Any two distinct indices returned by `find_peaks` are at least `dist`
apart. -/
theorem find_peaks_min_separation (x : List ℚ) (d : ℕ) (a b : ℕ)
    (ha : a ∈ find_peaks x d) (hb : b ∈ find_peaks x d) (hab : a ≠ b) :
    d ≤ nat_gap a b := by
  by_contra hlt
  push_neg at hlt
  obtain ⟨i, hi, hki, hia⟩ := mem_find_peaks_elim x d a ha
  obtain ⟨j, hj, hkj, hjb⟩ := mem_find_peaks_elim x d b hb
  have hij : i ≠ j := fun h => hab (by rw [← hia, ← hjb, h])
  exact select_separation _ _ _ i j hi hj hij (by rw [hia, hjb]; exact hlt) hki hkj

/-- Claim C8: for every series and every positive `min_distance`, any two
distinct accepted peak indices differ by at least `min_distance`, and any
two distinct accepted trough indices differ by at least `min_distance`. -/
theorem c8_min_distance_invariant (x : List ℚ) (d : ℕ) (hd : 0 < d) :
    (∀ a ∈ (find_extrema x d).peaks, ∀ b ∈ (find_extrema x d).peaks,
      a ≠ b → d ≤ nat_gap a b) ∧
    (∀ a ∈ (find_extrema x d).troughs, ∀ b ∈ (find_extrema x d).troughs,
      a ≠ b → d ≤ nat_gap a b) :=
  ⟨fun a ha b hb hab => find_peaks_min_separation x d a b ha hb hab,
   fun a ha b hb hab => find_peaks_min_separation _ d a b ha hb hab⟩

/-- Witness for C8 on the series [1, 5, 2, 6, 1] with `min_distance = 2`
(both peaks, at indices 1 and 3, survive and are 2 apart). -/
theorem c8_min_distance_invariant_witness :
    (∀ a ∈ (find_extrema [1, 5, 2, 6, 1] 2).peaks,
      ∀ b ∈ (find_extrema [1, 5, 2, 6, 1] 2).peaks, a ≠ b → 2 ≤ nat_gap a b) ∧
    (∀ a ∈ (find_extrema [1, 5, 2, 6, 1] 2).troughs,
      ∀ b ∈ (find_extrema [1, 5, 2, 6, 1] 2).troughs, a ≠ b → 2 ≤ nat_gap a b) :=
  c8_min_distance_invariant [1, 5, 2, 6, 1] 2 (by decide)

/-- The scan loop returns nothing once `i` has reached `iMax`. -/
theorem lm_loop_stop (x : List ℚ) (iMax i fuel : ℕ) (h : ¬ i < iMax) :
    lm_loop x iMax i fuel = [] := by
  cases fuel with
  | zero => rfl
  | succ n => simp only [lm_loop, if_neg h]

/-- A series of fewer than three samples has no interior local maximum. -/
theorem local_maxima_1d_short (x : List ℚ) (h : x.length ≤ 2) :
    local_maxima_1d x = [] := by
  unfold local_maxima_1d
  apply lm_loop_stop
  omega

/-- On a series of fewer than three samples `find_peaks` returns nothing. -/
theorem find_peaks_nil_of_short (x : List ℚ) (h : x.length ≤ 2) (d : ℕ) :
    find_peaks x d = [] := by
  unfold find_peaks
  rw [local_maxima_1d_short x h]
  rfl

/-- Claim C7, amended: a series with fewer than three samples yields an
empty ExtremaSet (no peaks and no troughs) without erroring; the
`2*min_distance+1` bound claimed by the spec does not hold of
`find_peaks(distance=...)` (see the counterexample), only the
three-sample minimum for a strict interior maximum does. -/
theorem c7_amended_short_series_empty (x : List ℚ) (d : ℕ) (h : x.length < 3) :
    find_extrema x d = ⟨[], []⟩ := by
  have h2 : x.length ≤ 2 := by omega
  unfold find_extrema
  rw [find_peaks_nil_of_short x h2, find_peaks_nil_of_short _ (by simpa using h2)]

/-- Witness for the amended C7 at the one-sample series [5]. -/
theorem c7_amended_short_series_empty_witness :
    find_extrema [(5 : ℚ)] 10 = ⟨[], []⟩ :=
  c7_amended_short_series_empty [5] 10 (by decide)

/-- A non-empty sorted frame always resolves to a result: every branch of
the event match returns `Except.ok`. -/
theorem calc_event_core_cons_ok (p0 : PricePoint) (rest : List PricePoint) (d : ℕ)
    (tp sl : ℚ) : ∃ r, calc_event_core (p0 :: rest) d tp sl = Except.ok r := by
  unfold calc_event_core
  rcases h1 : (tp_event (p0 :: rest) (p0.price * tp)).head? with _ | ptp <;>
    rcases h2 : (sl_event (p0 :: rest) (p0.price * sl)).head? with _ | psl <;>
      simp only [h1, h2] <;>
      first
        | exact ⟨_, rfl⟩
        | (split_ifs <;> exact ⟨_, rfl⟩)

/-- Claim C4, counterexample: the one-sample series with start price 0 is
non-empty with a non-positive start price, yet event detection does not
fail at all — it returns a result (the source divides by the zero start
price, which in float arithmetic yields inf/nan without raising), and in
particular never produces an `InvalidSeries` error. -/
theorem c4_counterexample_nonpositive_start_no_failure :
    (⟨0, 0⟩ : PricePoint).price ≤ 0 ∧
    (∃ r, calculate_event_data [⟨0, 0⟩] 25 (105/100) (97/100) = Except.ok r) ∧
    calculate_event_data [⟨0, 0⟩] 25 (105/100) (97/100) ≠
      Except.error CalcError.invalidSeries := by
  obtain ⟨r, hr⟩ := calc_event_core_cons_ok ⟨0, 0⟩ [] 25 (105/100) (97/100)
  refine ⟨by norm_num, ⟨r, hr⟩, ?_⟩
  intro hc
  rw [show calculate_event_data [(⟨0, 0⟩ : PricePoint)] 25 (105/100) (97/100) =
    calc_event_core [⟨0, 0⟩] 25 (105/100) (97/100) from rfl, hr] at hc
  exact Except.noConfusion hc

/-- Claim C4, amended: event detection fails exactly when the series is
empty, and that failure is the uncaught index error of the source (from
`prices.iloc[0]`), not a dedicated `InvalidSeries` error; a non-positive
start price never causes a failure. -/
theorem c4_amended_fails_only_when_empty (df : List PricePoint) (d : ℕ) (tp sl : ℚ) :
    (calculate_event_data df d tp sl = Except.error CalcError.indexError ↔ df = []) ∧
    calculate_event_data df d tp sl ≠ Except.error CalcError.invalidSeries := by
  unfold calculate_event_data
  rcases h : List.insertionSort timeLE df with _ | ⟨p0, rest⟩
  · have hdf : df = [] := by
      have hl := congrArg List.length h
      simp only [List.length_insertionSort, List.length_nil] at hl
      exact List.eq_nil_of_length_eq_zero hl
    refine ⟨⟨fun _ => hdf, fun _ => rfl⟩, ?_⟩
    intro hc
    rw [show calc_event_core [] d tp sl = Except.error CalcError.indexError from rfl] at hc
    have hce : CalcError.indexError = CalcError.invalidSeries := by
      injection hc
    exact CalcError.noConfusion hce
  · have hdf : df ≠ [] := by
      intro hnil
      rw [hnil] at h
      simp at h
    obtain ⟨r, hr⟩ := calc_event_core_cons_ok p0 rest d tp sl
    rw [hr]
    exact ⟨iff_of_false (by simp) hdf, by simp⟩

/-- Witness for the amended C4: the empty series fails with the index
error; a concrete non-empty series does not produce `InvalidSeries`. -/
theorem c4_amended_fails_only_when_empty_witness :
    calculate_event_data [] 25 (105/100) (97/100) = Except.error CalcError.indexError ∧
    calculate_event_data [⟨0, 100⟩] 25 (105/100) (97/100) ≠
      Except.error CalcError.invalidSeries :=
  ⟨(c4_amended_fails_only_when_empty [] 25 (105/100) (97/100)).1.mpr rfl,
   (c4_amended_fails_only_when_empty [⟨0, 100⟩] 25 (105/100) (97/100)).2⟩

/-- The head of a filtered, time-sorted frame is a matching row of minimal
time offset. -/
theorem filter_head_min_time (P : PricePoint → Bool) (l : List PricePoint)
    (hs : List.Sorted timeLE l) (q : PricePoint) (tl : List PricePoint)
    (h : l.filter P = q :: tl) :
    q ∈ l ∧ P q = true ∧
      ∀ p ∈ l, P p = true → q.timeSinceBoostStart ≤ p.timeSinceBoostStart := by
  have hq_mem_f : q ∈ l.filter P := by
    rw [h]
    exact List.mem_cons_self q tl
  obtain ⟨hq_mem, hq_P⟩ := List.mem_filter.mp hq_mem_f
  refine ⟨hq_mem, hq_P, ?_⟩
  intro p hp hP
  have hp_f : p ∈ l.filter P := List.mem_filter.mpr ⟨hp, hP⟩
  rw [h] at hp_f
  rcases List.mem_cons.mp hp_f with rfl | hp_tl
  · exact le_refl _
  · have hsf : List.Sorted timeLE (q :: tl) := h ▸ hs.filter P
    exact (List.pairwise_cons.mp hsf).1 p hp_tl

/-- Claim C5: for every non-empty sorted series in which no sample reaches
the TP boundary and no sample reaches the SL boundary, the event detector
returns `No trigger` with the time and price of the last sample, and the
effect percentage computed from that last price against the start price. -/
theorem c5_no_trigger_from_last_sample (p0 : PricePoint) (rest : List PricePoint)
    (d : ℕ) (tp sl : ℚ)
    (hs : List.Sorted timeLE (p0 :: rest))
    (hnone : ∀ p ∈ p0 :: rest, p.price < p0.price * tp ∧ p0.price * sl < p.price) :
    ∃ r : EventData, calculate_event_data (p0 :: rest) d tp sl = Except.ok r ∧
      r.event = "No trigger" ∧
      r.event_time = ((p0 :: rest).getLast (List.cons_ne_nil p0 rest)).timeSinceBoostStart ∧
      r.event_price = ((p0 :: rest).getLast (List.cons_ne_nil p0 rest)).price ∧
      r.effect = (((p0 :: rest).getLast (List.cons_ne_nil p0 rest)).price - p0.price) /
        p0.price * 100 := by
  unfold calculate_event_data
  rw [List.Sorted.insertionSort_eq hs]
  have h1 : (tp_event (p0 :: rest) (p0.price * tp)).head? = none := by
    rw [List.head?_eq_none_iff]
    unfold tp_event
    rw [List.filter_eq_nil_iff]
    intro p hp
    simpa using (hnone p hp).1
  have h2 : (sl_event (p0 :: rest) (p0.price * sl)).head? = none := by
    rw [List.head?_eq_none_iff]
    unfold sl_event
    rw [List.filter_eq_nil_iff]
    intro p hp
    simpa using (hnone p hp).2
  simp only [calc_event_core, h1, h2]
  exact ⟨_, rfl, rfl, rfl, rfl, rfl⟩

/-- Witness for C5: the series [(0, 100), (10, 101)] with tp = 1.05,
sl = 0.97 crosses no boundary; the result is `No trigger` at the last
sample (10, 101). -/
theorem c5_no_trigger_from_last_sample_witness :
    ∃ r : EventData,
      calculate_event_data [⟨0, 100⟩, ⟨10, 101⟩] 25 (105/100) (97/100) = Except.ok r ∧
      r.event = "No trigger" ∧
      r.event_time = (([⟨0, 100⟩, ⟨10, 101⟩] : List PricePoint).getLast
        (List.cons_ne_nil _ _)).timeSinceBoostStart ∧
      r.event_price = (([⟨0, 100⟩, ⟨10, 101⟩] : List PricePoint).getLast
        (List.cons_ne_nil _ _)).price ∧
      r.effect = ((([⟨0, 100⟩, ⟨10, 101⟩] : List PricePoint).getLast
        (List.cons_ne_nil _ _)).price - (⟨0, 100⟩ : PricePoint).price) /
        (⟨0, 100⟩ : PricePoint).price * 100 :=
  c5_no_trigger_from_last_sample ⟨0, 100⟩ [⟨10, 101⟩] 25 (105/100) (97/100)
    (by decide)
    (by
      intro p hp
      fin_cases hp <;> constructor <;> norm_num)

/-- Claim C1: for every sorted series crossing both boundaries, the event
detector returns the event whose first crossing is earlier in time, and
returns TP when the earliest TP crossing time equals the earliest SL
crossing time.  `ttp` and `tsl` are characterised as the minimal crossing
times by the membership and lower-bound hypotheses. -/
theorem c1_earlier_crossing_time_wins (p0 : PricePoint) (rest : List PricePoint)
    (d : ℕ) (tp sl : ℚ) (ttp tsl : ℚ)
    (hs : List.Sorted timeLE (p0 :: rest))
    (htp_mem : ∃ p ∈ p0 :: rest, p0.price * tp ≤ p.price ∧ p.timeSinceBoostStart = ttp)
    (htp_lb : ∀ p ∈ p0 :: rest, p0.price * tp ≤ p.price → ttp ≤ p.timeSinceBoostStart)
    (hsl_mem : ∃ p ∈ p0 :: rest, p.price ≤ p0.price * sl ∧ p.timeSinceBoostStart = tsl)
    (hsl_lb : ∀ p ∈ p0 :: rest, p.price ≤ p0.price * sl → tsl ≤ p.timeSinceBoostStart) :
    ∃ r : EventData, calculate_event_data (p0 :: rest) d tp sl = Except.ok r ∧
      r.event_time = min ttp tsl ∧
      r.event = (if ttp ≤ tsl then "TP" else "SL") ∧
      (ttp = tsl → r.event = "TP") := by
  unfold calculate_event_data
  rw [List.Sorted.insertionSort_eq hs]
  obtain ⟨q, hq_mem, hq_cross, hq_t⟩ := htp_mem
  obtain ⟨w, hw_mem, hw_cross, hw_t⟩ := hsl_mem
  rcases hfp : tp_event (p0 :: rest) (p0.price * tp) with _ | ⟨ptp, tl⟩
  · exfalso
    have hq_f : q ∈ tp_event (p0 :: rest) (p0.price * tp) :=
      List.mem_filter.mpr ⟨hq_mem, by simpa using hq_cross⟩
    rw [hfp] at hq_f
    exact List.not_mem_nil q hq_f
  rcases hfs : sl_event (p0 :: rest) (p0.price * sl) with _ | ⟨psl, tl'⟩
  · exfalso
    have hw_f : w ∈ sl_event (p0 :: rest) (p0.price * sl) :=
      List.mem_filter.mpr ⟨hw_mem, by simpa using hw_cross⟩
    rw [hfs] at hw_f
    exact List.not_mem_nil w hw_f
  obtain ⟨hp_mem, hp_P, hp_min⟩ := filter_head_min_time _ _ hs ptp tl hfp
  obtain ⟨hm_mem, hm_P, hm_min⟩ := filter_head_min_time _ _ hs psl tl' hfs
  have htpeq : ptp.timeSinceBoostStart = ttp := by
    apply le_antisymm
    · rw [← hq_t]
      exact hp_min q hq_mem (by simpa using hq_cross)
    · exact htp_lb ptp hp_mem (by simpa using hp_P)
  have hsleq : psl.timeSinceBoostStart = tsl := by
    apply le_antisymm
    · rw [← hw_t]
      exact hm_min w hw_mem (by simpa using hw_cross)
    · exact hsl_lb psl hm_mem (by simpa using hm_P)
  simp only [calc_event_core, hfp, hfs, List.head?_cons]
  by_cases hif : ttp ≤ tsl
  · rw [if_pos (show ptp.timeSinceBoostStart ≤ psl.timeSinceBoostStart by
      rw [htpeq, hsleq]; exact hif)]
    refine ⟨_, rfl, ?_, ?_, fun _ => rfl⟩
    · show ptp.timeSinceBoostStart = min ttp tsl
      rw [htpeq, min_eq_left hif]
    · show "TP" = if ttp ≤ tsl then "TP" else "SL"
      rw [if_pos hif]
  · rw [if_neg (show ¬ ptp.timeSinceBoostStart ≤ psl.timeSinceBoostStart by
      rw [htpeq, hsleq]; exact hif)]
    refine ⟨_, rfl, ?_, ?_, fun heq => absurd (le_of_eq heq) hif⟩
    · show psl.timeSinceBoostStart = min ttp tsl
      rw [hsleq, min_eq_right (le_of_lt (not_le.mp hif))]
    · show "SL" = if ttp ≤ tsl then "TP" else "SL"
      rw [if_neg hif]

/-- Witness for C1: the concrete scenario of the spec — series [(0,100),
(10,103), (20,108), (30,96)], tp = 1.05, sl = 0.97; the TP boundary 105 is
first reached at time 20, the SL boundary 97 at time 30, so the result is
TP at time 20. -/
theorem c1_earlier_crossing_time_wins_witness :
    ∃ r : EventData,
      calculate_event_data [⟨0, 100⟩, ⟨10, 103⟩, ⟨20, 108⟩, ⟨30, 96⟩] 25
        (105/100) (97/100) = Except.ok r ∧
      r.event_time = min (20 : ℚ) 30 ∧
      r.event = (if (20 : ℚ) ≤ 30 then "TP" else "SL") ∧
      ((20 : ℚ) = 30 → r.event = "TP") :=
  c1_earlier_crossing_time_wins ⟨0, 100⟩ [⟨10, 103⟩, ⟨20, 108⟩, ⟨30, 96⟩] 25
    (105/100) (97/100) 20 30
    (by decide)
    ⟨⟨20, 108⟩, by decide, by norm_num, rfl⟩
    (by intro p hp; fin_cases hp <;> norm_num)
    ⟨⟨30, 96⟩, by decide, by norm_num, rfl⟩
    (by intro p hp; fin_cases hp <;> norm_num)
